import Mathlib

set_option maxRecDepth 100000

/-!
Verification of the retrieval engine of the Fairstakeai repository.

The development shallowly embeds the Python sources:
  * `backend/app/utils/simple_free_rag.py` (class `SimpleFreeRAG`): word-based
    chunking, TF-IDF index build/save/load, cosine-similarity search with
    top-k selection and threshold, answer generation with extractive fallback;
  * `backend/app/utils/rag_ingest.py` (`chunk_text`): character-based
    overlapping chunking;
  * `backend/app/utils/rag_query.py` (`generate_answer`): quota-classified
    fallback answers;
  * `backend/app/routes/rag.py` (`rag_query`): tier selection between the AWS
    managed knowledge base and the local lexical index;
  * `clearclause-legal-assistant/backend/legal_processor.py`
    (`handle_document_qna`): dense / TF-IDF / keyword retrieval selection.

External collaborators (sklearn's fitted vectorizer and cosine similarity, the
Gemini generation call, pypdf text extraction, pickle serialization) are
modelled as abstract data with exactly the shape the code relies on.
-/

/-- Python `str` whitespace: the characters `str.split()` / `str.strip()`
treat as separators. -/
def isPySpace (c : Char) : Bool :=
  c = ' ' || c = '\t' || c = '\n' || c = '\r' || c = '\x0B' || c = '\x0C'

/-- Python `str.strip()` on the underlying character list: drop whitespace
from both ends. -/
def pyStripL (l : List Char) : List Char :=
  ((l.dropWhile isPySpace).reverse.dropWhile isPySpace).reverse

/-- Python `str.strip()`. -/
def pyStrip (s : String) : String := ⟨pyStripL s.data⟩

/-- Python slicing `s[:n]` on a string. -/
def strTake (s : String) (n : Nat) : String := ⟨s.data.take n⟩

/-- Python `str.lower()` (ASCII-level model). -/
def pyLower (s : String) : String := ⟨s.data.map Char.toLower⟩

/-- Accumulator loop for Python `str.split()`: `cur` holds the characters of
the word currently being read, in reverse. -/
def pyWordsAux (cur : List Char) : List Char → List String
  | [] => if cur = [] then [] else [⟨cur.reverse⟩]
  | c :: rest =>
      if isPySpace c then
        if cur = [] then pyWordsAux [] rest
        else ⟨cur.reverse⟩ :: pyWordsAux [] rest
      else pyWordsAux (c :: cur) rest

/-- Python `str.split()` with no argument: split on whitespace runs, dropping
empty pieces. -/
def pyWords (s : String) : List String := pyWordsAux [] s.data

/-- Python `"sep".join(parts)`. -/
def pyJoin (sep : String) : List String → String
  | [] => ""
  | [s] => s
  | s :: t :: rest => s ++ sep ++ pyJoin sep (t :: rest)

/-- Does `needle` occur at the head of `hay`? (helper for the Python `in`
operator on strings). -/
def leadsWith [DecidableEq α] : List α → List α → Bool
  | [], _ => true
  | _ :: _, [] => false
  | a :: as, b :: bs => decide (a = b) && leadsWith as bs

/-- Does `needle` occur contiguously anywhere in `hay`? -/
def containsSeq [DecidableEq α] (needle : List α) : List α → Bool
  | [] => decide (needle = ([] : List α))
  | a :: t => leadsWith needle (a :: t) || containsSeq needle t

/-- Python `needle in hay` for strings. -/
def pyIn (needle hay : String) : Bool := containsSeq needle.data hay.data

/-- `hay` contains `needle` as a contiguous substring (propositional form used
to state the spec's "contains ... verbatim" claims). -/
def strContains (hay needle : String) : Prop := ∃ pre post, hay = pre ++ needle ++ post

/-! ### Chunkers -/

/-- The chunk loop of `SimpleFreeRAG._load_pdf` / `_load_docx`:
`for i in range(0, len(words), 200): chunk = " ".join(words[i:i+200]);
 if len(chunk.strip()) > 50: keep chunk`.
The loop advances `i` by 200 per iteration, so it runs at most
`words.length + 1` times; the `fuel` argument makes that bound explicit and is
never exhausted. -/
def pageWordChunkLoop (words : List String) : Nat → Nat → List String
  | 0, _ => []
  | fuel + 1, i =>
    if i < words.length then
      let chunk := pyJoin " " ((words.drop i).take 200)
      let rest := pageWordChunkLoop words fuel (i + 200)
      if 50 < (pyStrip chunk).length then chunk :: rest else rest
    else []

/-- All chunks the `SimpleFreeRAG` loaders produce from one page's word list
(`chunk_size = 200` words, stride 200: consecutive windows share no words). -/
def pageWordChunks (words : List String) : List String :=
  pageWordChunkLoop words (words.length + 1) 0

/-- The while-loop of `chunk_text` in `rag_ingest.py`:
`while start < len(text): chunk = text[start:start+chunk_size];
 if chunk.strip(): chunks.append(chunk); start += chunk_size - overlap`.
Slicing is on characters.  `start` advances by `chunk_size - overlap` per
iteration (the Python loop diverges when `overlap ≥ chunk_size`; every call
site uses `overlap < chunk_size`, where `text.length + 1` iterations always
suffice, so the fuel is never exhausted there). -/
def chunkTextLoop (text : List Char) (chunk_size overlap : Nat) : Nat → Nat → List (List Char)
  | 0, _ => []
  | fuel + 1, start =>
    if start < text.length then
      let chunk := (text.drop start).take chunk_size
      let rest := chunkTextLoop text chunk_size overlap fuel (start + (chunk_size - overlap))
      if pyStripL chunk = [] then rest else chunk :: rest
    else []

/-- `chunk_text(text, chunk_size, overlap)` from `rag_ingest.py`. -/
def chunk_text (text : List Char) (chunk_size overlap : Nat) : List (List Char) :=
  chunkTextLoop text chunk_size overlap (text.length + 1) 0

/-! ### The lexical index (`SimpleFreeRAG`) data model -/

/-- The metadata record `{"filename": ..., "page": ..., "path": ...}` appended
alongside each chunk by `_load_pdf` / `_load_docx`. -/
structure ChunkMeta where
  filename : String
  page : Nat
  path : String
  deriving DecidableEq, Repr

/-- Abstract model of the pair (fitted sklearn `TfidfVectorizer`,
`tfidf_matrix`).  `sim q` is `cosine_similarity(vectorizer.transform([q]),
tfidf_matrix)[0]`: one similarity score per matrix row, which is the shape
`search` relies on. -/
structure FittedVectorizer where
  numRows : Nat
  sim : String → List ℚ
  sim_length : ∀ q, (sim q).length = numRows

/-- Abstract model of `TfidfVectorizer(...).fit_transform`: fitting on a chunk
list yields a fitted vectorizer whose matrix has one row per chunk. -/
structure TfidfFit where
  fit : List String → FittedVectorizer
  fit_rows : ∀ chunks, (fit chunks).numRows = chunks.length

/-- The mutable state of a `SimpleFreeRAG` instance.  The `tfidf_matrix` field
of the Python object is fused into `FittedVectorizer`; `vectorizer = none`
models the unbuilt state set up by `__init__`. -/
structure RAGState where
  chunks : List String
  metadata : List ChunkMeta
  vectorizer : Option FittedVectorizer

/-- The state after `__init__`. -/
def ragInit : RAGState := ⟨[], [], none⟩

/-- A source document as seen by `load_documents` after the external
extraction step: per-page text for a PDF, paragraph texts for a DOCX. -/
inductive SourceDoc where
  | pdf (filename path : String) (pages : List String)
  | docx (filename path : String) (paragraphs : List String)

/-- The (chunk, metadata) pairs one document contributes, in order.
For a PDF: pages are enumerated from 0, a page is processed only when its
extracted text strips to non-empty, and the stored page number is
`page_num + 1`.  For a DOCX: the paragraphs are joined with newlines and
chunked as one text with page number 1. -/
def SourceDoc.entries : SourceDoc → List (String × ChunkMeta)
  | .pdf filename path pages =>
      (pages.enum.map (fun pg =>
        if pyStrip pg.2 ≠ "" then
          (pageWordChunks (pyWords pg.2)).map (fun c => (c, ⟨filename, pg.1 + 1, path⟩))
        else [])).flatten
  | .docx filename path paragraphs =>
      let text := paragraphs.foldl (fun acc p => acc ++ p ++ "\n") ""
      if pyStrip text ≠ "" then
        (pageWordChunks (pyWords text)).map (fun c => (c, ⟨filename, 1, path⟩))
      else []

/-- Loading one document: `_load_pdf` / `_load_docx` append each kept chunk to
`self.chunks` and its metadata record to `self.metadata`, in lockstep. -/
def loadDocument (st : RAGState) (d : SourceDoc) : RAGState :=
  { st with
    chunks := st.chunks ++ d.entries.map Prod.fst
    metadata := st.metadata ++ d.entries.map Prod.snd }

/-- `SimpleFreeRAG.load_documents`: process the files found in the contracts
directory, one after the other.  Note that it only ever appends: the chunk and
metadata lists are never cleared first. -/
def load_documents (st : RAGState) (files : List SourceDoc) : RAGState :=
  files.foldl loadDocument st

/-- The chunks a batch of documents produces on its own (what `load_documents`
contributes on top of whatever state is already in memory). -/
def batchChunks (files : List SourceDoc) : List String :=
  (files.map (fun d => d.entries.map Prod.fst)).flatten

/-- The metadata records a batch of documents produces on its own. -/
def batchMetadata (files : List SourceDoc) : List ChunkMeta :=
  (files.map (fun d => d.entries.map Prod.snd)).flatten

/-- `SimpleFreeRAG.build_index`: with no chunks it prints and returns leaving
the state unchanged; otherwise it fits the vectorizer over `self.chunks`. -/
def build_index (F : TfidfFit) (st : RAGState) : RAGState :=
  if st.chunks = [] then st
  else { st with vectorizer := some (F.fit st.chunks) }

/-- The record `save_index` pickles: chunks, metadata, vectorizer and matrix
(the latter two fused in `FittedVectorizer`).  Pickle serialization of these
objects is modelled as the identity on the bundled record. -/
structure SavedIndex where
  chunks : List String
  metadata : List ChunkMeta
  vectorizer : Option FittedVectorizer

/-- `SimpleFreeRAG.save_index`. -/
def save_index (st : RAGState) : SavedIndex :=
  ⟨st.chunks, st.metadata, st.vectorizer⟩

/-- `SimpleFreeRAG.load_index` (successful branch): every field of the
instance is replaced by the saved data, so the prior state is irrelevant. -/
def load_index (d : SavedIndex) : RAGState :=
  ⟨d.chunks, d.metadata, d.vectorizer⟩

/-! ### Search -/

/-- The order `np.argsort(similarities)` sorts by: ascending similarity, ties
by position (the deterministic tie order of a stable argsort, which numpy's
`kind='stable'` guarantees and its default sort exhibits on small arrays). -/
def simLe (sims : List ℚ) (i j : Nat) : Prop :=
  sims.getD i 0 < sims.getD j 0 ∨ (sims.getD i 0 = sims.getD j 0 ∧ i ≤ j)

instance (sims : List ℚ) : DecidableRel (simLe sims) := fun i j => by
  unfold simLe; infer_instance

instance (sims : List ℚ) : IsTotal Nat (simLe sims) where
  total i j := by
    rcases lt_trichotomy (sims.getD i 0) (sims.getD j 0) with h | h | h
    · exact Or.inl (Or.inl h)
    · rcases Nat.le_total i j with hij | hij
      · exact Or.inl (Or.inr ⟨h, hij⟩)
      · exact Or.inr (Or.inr ⟨h.symm, hij⟩)
    · exact Or.inr (Or.inl h)

instance (sims : List ℚ) : IsTrans Nat (simLe sims) where
  trans i j k h1 h2 := by
    rcases h1 with h1 | ⟨e1, l1⟩ <;> rcases h2 with h2 | ⟨e2, l2⟩
    · exact Or.inl (h1.trans h2)
    · exact Or.inl (e2 ▸ h1)
    · exact Or.inl (e1 ▸ h2)
    · exact Or.inr ⟨e1.trans e2, l1.trans l2⟩

/-- `np.argsort(similarities)`: the indices `0 .. n-1` sorted ascending by
score (stable, so ties stay in index order). -/
def argsortStable (sims : List ℚ) : List Nat :=
  List.insertionSort (simLe sims) (List.range sims.length)

/-- `np.argsort(similarities)[-top_k:][::-1]`.  For `top_k > 0` the Python
slice keeps the last `min top_k n` entries; `a[-0:]` is the whole array. -/
def topIndices (sims : List ℚ) (top_k : Nat) : List Nat :=
  (if top_k = 0 then argsortStable sims
   else (argsortStable sims).drop (sims.length - top_k)).reverse

/-- Outcome of one call to the external generation backend (`genai`
`generate_content`): the produced text, or the exception message. -/
inductive GenResult where
  | ok (text : String)
  | err (msg : String)

/-- The minimum-score threshold `0.003` of `SimpleFreeRAG.search` (line
`if similarities[idx] > 0.003`).  Written with `mkRat` so that concrete
searches evaluate inside the kernel; `simThreshold_eq` identifies it with
`3/1000`. -/
def simThreshold : ℚ := mkRat 3 1000

theorem simThreshold_eq : simThreshold = 3 / 1000 := by
  rw [simThreshold, Rat.mkRat_eq_div]; norm_num

namespace SimpleFreeRAG

/-- One entry of the result list `search` builds. -/
structure SearchResult where
  text : String
  score : ℚ
  metadata : ChunkMeta
  deriving DecidableEq, Repr

/-- `SimpleFreeRAG.search`: return `[]` when the vectorizer was never fitted;
otherwise score every chunk, take the `top_k` highest-scoring indices in
descending order and keep those whose similarity exceeds `0.003`, reading
`chunks[idx]` and `metadata[idx]` for each kept index (list indexing is
modelled with `getD`; the reachable-state invariant proves it in bounds). -/
def search (st : RAGState) (query : String) (top_k : Nat := 8) : List SearchResult :=
  match st.vectorizer with
  | none => []
  | some fv =>
      let similarities := fv.sim query
      let top_indices := topIndices similarities top_k
      (top_indices.filter (fun idx => decide (simThreshold < similarities.getD idx 0))).map
        (fun idx => ⟨st.chunks.getD idx "", similarities.getD idx 0, st.metadata.getD idx ⟨"", 0, ""⟩⟩)

/-- The chunk indices `search` keeps, in result order (the `idx` values for
which the loop body appends a result). -/
def searchIndices (st : RAGState) (query : String) (top_k : Nat) : List Nat :=
  match st.vectorizer with
  | none => []
  | some fv =>
      (topIndices (fv.sim query) top_k).filter
        (fun idx => decide (simThreshold < (fv.sim query).getD idx 0))

/-- The context string `generate_answer` builds from the top 3 results. -/
def context3 (results : List SearchResult) : String :=
  pyJoin "\n\n" ((results.take 3).map (fun r =>
    "[From " ++ r.metadata.filename ++ ", Page " ++ Nat.repr r.metadata.page ++ "]\n" ++ r.text))

/-- The prompt template of `SimpleFreeRAG.generate_answer`. -/
def promptText (context query : String) : String :=
  "You are a legal contract analyst. Answer the question based ONLY on the provided context.\n\nContext from contracts:\n"
    ++ context ++ "\n\nQuestion: " ++ query
    ++ "\n\nInstructions:\n1. Provide a clear, direct answer\n2. Cite the source document and page number\n3. If the context doesn\x27t contain the answer, say \"The provided contracts do not contain this information\"\n4. Be concise but complete\n\nAnswer:"

/-- `SimpleFreeRAG.generate_answer`.  With no API key: a canned extractive
answer.  Otherwise the Gemini call is attempted; on success its text is
returned, and on ANY exception the fallback is the extractive answer built
from the top result (or an error-description string when there are no
results).  The backend call is the only fallible statement of the `try`
block. -/
def generate_answer (apiKey : String) (gen : String → GenResult) (query : String)
    (results : List SearchResult) : String :=
  if apiKey = "" then
    match results with
    | r :: _ =>
        "[Based on " ++ r.metadata.filename ++ " p." ++ Nat.repr r.metadata.page ++ "]\n\n"
          ++ strTake r.text 500 ++ "..."
    | [] => "No relevant information found."
  else
    match gen (promptText (context3 results) query) with
    | .ok t => t
    | .err e =>
        match results with
        | r :: _ =>
            "[Extractive answer from " ++ r.metadata.filename ++ " p." ++ Nat.repr r.metadata.page ++ "]\n\n"
              ++ strTake r.text 500 ++ "..."
        | [] => "Error generating answer: " ++ e

/-- One citation record built by `SimpleFreeRAG.query` (the `raw_metadata`
passthrough field is omitted; it duplicates `ChunkMeta`). -/
structure Citation where
  s3_object : String
  page : Nat
  snippet : String
  confidence : ℚ
  deriving DecidableEq, Repr

/-- The result dict of `SimpleFreeRAG.query`. -/
structure QueryOutcome where
  answer : String
  citations : List Citation
  reasoning : String
  deriving DecidableEq, Repr

/-- `SimpleFreeRAG.query`: search with `top_k=5`; with no results, the canned
no-information outcome with empty citations; otherwise generate an answer and
map each result to a citation (snippet truncated to 400 characters). -/
def query (apiKey : String) (gen : String → GenResult) (st : RAGState)
    (question : String) : QueryOutcome :=
  let results := search st question 5
  if results = [] then
    ⟨"No relevant information found in the uploaded contracts.", [], "No matching documents"⟩
  else
    ⟨generate_answer apiKey gen question results,
     results.map (fun r => ⟨r.metadata.filename, r.metadata.page, strTake r.text 400, r.score⟩),
     "Found " ++ Nat.repr results.length ++ " relevant passages using TF-IDF similarity"⟩

end SimpleFreeRAG

/-! ### `rag_query.py` -/

namespace RagQuery

/-- One retrieved chunk dict as `query_chromadb` formats it. -/
structure RQChunk where
  text : String
  filename : String
  page : Nat
  chunk_index : Nat
  distance : ℚ
  deriving DecidableEq, Repr

/-- The quota classification in `generate_answer`:
`"429" in error_msg or "quota" in error_msg.lower()`. -/
def isQuotaError (msg : String) : Bool :=
  pyIn "429" msg || pyIn "quota" (pyLower msg)

/-- The quota-exceeded header line (the leading warning-emoji of the source
string is elided: the source file stores it as an encoding artifact). -/
def quotaNote : String :=
  "Gemini API quota exceeded. Here are the most relevant passages I found:\n"

/-- The trailing tip appended to the fallback answer (leading emoji elided as
above). -/
def quotaTip : String :=
  "\n\nTip: Wait 1 minute and try again, or switch to AWS RAG in settings."

/-- The deterministic extractive fallback `generate_answer` builds on a quota
error: the header, then for each of the top 3 chunks a source line and a line
with the chunk text truncated to 300 characters, joined with newlines, plus
the tip. -/
def fallbackAnswer (context_chunks : List RQChunk) : String :=
  let parts :=
    quotaNote ::
      ((context_chunks.take 3).enum.map (fun ic =>
        ["\n" ++ Nat.repr (ic.1 + 1) ++ ". From " ++ ic.2.filename ++ ", Page "
           ++ Nat.repr ic.2.page ++ ":",
         "   " ++ strTake ic.2.text 300 ++ "..."])).flatten
  pyJoin "\n" parts ++ quotaTip

/-- The context string built from the retrieved chunks. -/
def contextText (context_chunks : List RQChunk) : String :=
  pyJoin "\n" (context_chunks.enum.map (fun ic =>
    "[Source " ++ Nat.repr (ic.1 + 1) ++ ": " ++ ic.2.filename ++ ", Page "
      ++ Nat.repr ic.2.page ++ "]\n" ++ ic.2.text ++ "\n"))

/-- The prompt template of `rag_query.generate_answer`. -/
def promptText (context question : String) : String :=
  "You are a legal document analysis assistant. Answer the question based ONLY on the provided context.\n\nContext from legal documents:\n"
    ++ context ++ "\n\nUser Question: " ++ question
    ++ "\n\nInstructions:\n1. Provide a clear, direct answer\n2. Cite specific sources (mention document name and page number)\n3. If the context doesn\x27t contain the answer, say \"The provided documents do not contain information about this\"\n4. Be specific and use legal terminology when appropriate\n\nAnswer:"

/-- The answer text computed by `rag_query.generate_answer` (the returned dict
also carries `citations = context_chunks` unchanged).  Without a configured
Gemini model a canned message is returned; otherwise on a backend exception
classified as quota/rate-limit the extractive fallback is returned, and on any
other backend error an error-description string. -/
def generate_answer (modelConfigured : Bool) (gen : String → GenResult) (question : String)
    (context_chunks : List RQChunk) : String :=
  if !modelConfigured then
    "Gemini API not configured. Please set GEMINI_API_KEY in .env"
  else
    match gen (promptText (contextText context_chunks) question) with
    | .ok t => t
    | .err e =>
        if isQuotaError e then fallbackAnswer context_chunks
        else "Error calling Gemini API: " ++ e

end RagQuery

/-! ### Tier selection -/

/-- The two backends the `/api/rag-query` route can service a query with. -/
inductive RagBackend where
  | awsKB
  | localLexical
  deriving DecidableEq, Repr

/-- `use_aws = bool(KNOWLEDGE_BASE_ID.strip()) and bedrock_agent_runtime is
not None` in `routes/rag.py`: the managed tier is chosen exactly when its id
is configured and the client initialized; otherwise the local lexical tier. -/
def chooseRagBackend (knowledgeBaseId : String) (clientReady : Bool) : RagBackend :=
  if pyStrip knowledgeBaseId ≠ "" ∧ clientReady = true then .awsKB else .localLexical

/-- The `RAGQueryResponse` the route returns.  `rawSource` models the
provenance tag of `raw_response` (`{"source": "local_free"}` on the local
path; the AWS path passes the raw AWS response through, modelled `none`). -/
structure RouteResponse where
  answer : String
  reasoning : String
  citations : List SimpleFreeRAG.Citation
  rawSource : Option String
  deriving DecidableEq, Repr

/-- The `rag_query` route body: exactly one backend is consulted.  On the
local path the `SimpleFreeRAG.query` outcome is mapped to the unified citation
model (first `MAX_RESULTS = 5` citations, snippets truncated to 500); on the
AWS path the managed service's answer and citations are returned with the
fixed reasoning string. -/
def ragQueryRoute (knowledgeBaseId : String) (clientReady : Bool)
    (localOutcome : SimpleFreeRAG.QueryOutcome)
    (awsAnswer : String) (awsCitations : List SimpleFreeRAG.Citation) : RouteResponse :=
  match chooseRagBackend knowledgeBaseId clientReady with
  | .localLexical =>
      ⟨localOutcome.answer, localOutcome.reasoning,
       (localOutcome.citations.take 5).map (fun c => { c with snippet := strTake c.snippet 500 }),
       some "local_free"⟩
  | .awsKB =>
      ⟨awsAnswer, "Retrieved from knowledge base and analyzed by Claude", awsCitations, none⟩

/-- The retrieval methods of `LegalDocumentProcessor.handle_document_qna`. -/
inductive RetrievalMethod where
  | dense
  | tfidf
  | keyword
  deriving DecidableEq, Repr

/-- Tier selection in `handle_document_qna`: FAISS when the vector store was
built, else the TF-IDF index when it was built, else keyword scoring.  The
branches are exclusive: exactly one retrieval method produces `docs`. -/
def chooseRetrieval (hasVectorStore hasTfidfIndex : Bool) : RetrievalMethod :=
  if hasVectorStore then .dense
  else if hasTfidfIndex then .tfidf
  else .keyword

/-! ### Reachable index states -/

/-- States of a `SimpleFreeRAG` instance reachable through its lifecycle
operations: a fresh instance, loading documents, building the index, and
loading a previously saved index. -/
inductive Reachable (F : TfidfFit) : RAGState → Prop where
  | init : Reachable F ragInit
  | loadDocs {st : RAGState} (files : List SourceDoc) :
      Reachable F st → Reachable F (load_documents st files)
  | build {st : RAGState} :
      Reachable F st → Reachable F (build_index F st)
  | loadSaved {st : RAGState} :
      Reachable F st → Reachable F (load_index (save_index st))

/-- The structural invariant of a `SimpleFreeRAG` instance: metadata and
chunks stay parallel, and a fitted vectorizer never has more matrix rows than
there are chunks (equality right after `build_index`; `load_documents` may
later append chunks without refitting). -/
def StateInv (st : RAGState) : Prop :=
  st.metadata.length = st.chunks.length ∧
    ∀ fv, st.vectorizer = some fv → fv.numRows ≤ st.chunks.length

/-! ### Shared lemmas about the selection pipeline -/

theorem argsortStable_perm (sims : List ℚ) :
    (argsortStable sims).Perm (List.range sims.length) :=
  List.perm_insertionSort _ _

theorem argsortStable_sorted (sims : List ℚ) :
    (argsortStable sims).Pairwise (simLe sims) :=
  List.sorted_insertionSort _ _

theorem argsortStable_nodup (sims : List ℚ) : (argsortStable sims).Nodup :=
  (argsortStable_perm sims).symm.nodup (List.nodup_range _)

theorem mem_topIndices {sims : List ℚ} {k idx : Nat} (h : idx ∈ topIndices sims k) :
    idx < sims.length := by
  rw [topIndices, List.mem_reverse] at h
  have hmem : idx ∈ argsortStable sims := by
    split at h
    · exact h
    · exact List.Sublist.mem h (List.drop_sublist _ _)
  have := (argsortStable_perm sims).mem_iff.mp hmem
  simpa using this

theorem topIndices_pairwise (sims : List ℚ) (k : Nat) :
    (topIndices sims k).Pairwise (fun i j => simLe sims j i) := by
  rw [topIndices, List.pairwise_reverse]
  split
  · exact argsortStable_sorted sims
  · exact List.Pairwise.sublist (List.drop_sublist _ _) (argsortStable_sorted sims)

theorem topIndices_nodup (sims : List ℚ) (k : Nat) : (topIndices sims k).Nodup := by
  rw [topIndices, List.nodup_reverse]
  split
  · exact argsortStable_nodup sims
  · exact List.Nodup.sublist (List.drop_sublist _ _) (argsortStable_nodup sims)

theorem topIndices_length (sims : List ℚ) (k : Nat) (hk : k ≠ 0) :
    (topIndices sims k).length = min k sims.length := by
  have hlen : (argsortStable sims).length = sims.length := by
    simpa using (argsortStable_perm sims).length_eq
  rw [topIndices, if_neg hk, List.length_reverse, List.length_drop, hlen]
  omega

theorem search_eq_of_some {st : RAGState} {fv : FittedVectorizer}
    (hv : st.vectorizer = some fv) (q : String) (k : Nat) :
    SimpleFreeRAG.search st q k =
      ((topIndices (fv.sim q) k).filter
          (fun idx => decide (simThreshold < (fv.sim q).getD idx 0))).map
        (fun idx =>
          ⟨st.chunks.getD idx "", (fv.sim q).getD idx 0, st.metadata.getD idx ⟨"", 0, ""⟩⟩) := by
  unfold SimpleFreeRAG.search
  rw [hv]

theorem searchIndices_eq_of_some {st : RAGState} {fv : FittedVectorizer}
    (hv : st.vectorizer = some fv) (q : String) (k : Nat) :
    SimpleFreeRAG.searchIndices st q k =
      (topIndices (fv.sim q) k).filter
        (fun idx => decide (simThreshold < (fv.sim q).getD idx 0)) := by
  unfold SimpleFreeRAG.searchIndices
  rw [hv]

theorem search_none {st : RAGState} (hv : st.vectorizer = none) (q : String) (k : Nat) :
    SimpleFreeRAG.search st q k = [] := by
  unfold SimpleFreeRAG.search
  rw [hv]

/-! ### C1 -/

/-- C1: for every built lexical index with `N` chunks (one matrix row per
chunk), every query and every `k > 0`, `search(query, k)` returns at most
`min k N` results, sorted by non-increasing score, and every returned score is
at least the threshold `0.003` (the code keeps strictly-greater scores, so
below-threshold results are dropped and nothing is zero-padded). -/
theorem C1_search_topk_sorted_threshold (st : RAGState) (fv : FittedVectorizer)
    (hv : st.vectorizer = some fv) (hN : fv.numRows = st.chunks.length)
    (q : String) (k : Nat) (hk : 0 < k) :
    (SimpleFreeRAG.search st q k).length ≤ min k st.chunks.length ∧
    (SimpleFreeRAG.search st q k).Pairwise (fun a b => b.score ≤ a.score) ∧
    ∀ r ∈ SimpleFreeRAG.search st q k, simThreshold ≤ r.score := by
  rw [search_eq_of_some hv q k]
  have hn : (fv.sim q).length = st.chunks.length := by rw [fv.sim_length q, hN]
  refine ⟨?_, ?_, ?_⟩
  · rw [List.length_map, ← hn]
    exact le_trans (List.length_filter_le _ _)
      (le_of_eq (topIndices_length (fv.sim q) k (Nat.pos_iff_ne_zero.mp hk)))
  · rw [List.pairwise_map]
    refine List.Pairwise.imp ?_
      (List.Pairwise.sublist (List.filter_sublist _) (topIndices_pairwise (fv.sim q) k))
    intro i j hji
    rcases hji with hlt | ⟨heq, _⟩
    · exact le_of_lt hlt
    · exact le_of_eq heq
  · intro r hr
    rw [List.mem_map] at hr
    obtain ⟨idx, hidx, rfl⟩ := hr
    rw [List.mem_filter] at hidx
    exact le_of_lt (of_decide_eq_true hidx.2)

/-- Concrete index used to witness C1. -/
def fvC1 : FittedVectorizer := ⟨2, fun _ => [mkRat 1 1000, mkRat 1 2], fun _ => rfl⟩

/-- Concrete built state used to witness C1. -/
def stC1 : RAGState := ⟨["a", "b"], [⟨"f", 1, "p"⟩, ⟨"f", 2, "p"⟩], some fvC1⟩

/-- Witness for C1 at a concrete two-chunk index and `k = 2`. -/
theorem C1_witness :
    (SimpleFreeRAG.search stC1 "q" 2).length ≤ min 2 stC1.chunks.length ∧
    (SimpleFreeRAG.search stC1 "q" 2).Pairwise (fun a b => b.score ≤ a.score) ∧
    ∀ r ∈ SimpleFreeRAG.search stC1 "q" 2, simThreshold ≤ r.score :=
  C1_search_topk_sorted_threshold stC1 fvC1 rfl rfl "q" 2 (by decide)

/-! ### C3 -/

/-- C3: the saved artifact bundles exactly the chunks, the metadata, and the
fitted vectorizer with its matrix; loading it back restores the full index
state, so search results after a save/load round trip are identical to the
pre-save index's for every query and every `k`. -/
theorem C3_roundtrip_persistence (st : RAGState) (q : String) (k : Nat) :
    save_index st = ⟨st.chunks, st.metadata, st.vectorizer⟩ ∧
    load_index (save_index st) = st ∧
    SimpleFreeRAG.search (load_index (save_index st)) q k = SimpleFreeRAG.search st q k :=
  ⟨rfl, rfl, rfl⟩

/-! ### C8 -/

/-- Concrete index with two equal-scoring chunks used for C8. -/
def fvC8 : FittedVectorizer := ⟨2, fun _ => [mkRat 1 2, mkRat 1 2], fun _ => rfl⟩

/-- Concrete built state with two equal-scoring chunks used for C8. -/
def stC8 : RAGState := ⟨["c0", "c1"], [⟨"f", 1, "p"⟩, ⟨"f", 2, "p"⟩], some fvC8⟩

/-- C8 counterexample: chunks 0 and 1 both score `1/2`, yet
`search` returns chunk 1 before chunk 0 — equal-score chunks come back in
REVERSE insertion order, because `np.argsort(similarities)[-top_k:][::-1]`
reverses the ascending argsort, flipping the order of ties. -/
theorem C8_counterexample :
    (SimpleFreeRAG.search stC8 "q" 2).map SimpleFreeRAG.SearchResult.score
        = [mkRat 1 2, mkRat 1 2] ∧
    (SimpleFreeRAG.search stC8 "q" 2).map SimpleFreeRAG.SearchResult.text = ["c1", "c0"] ∧
    (["c1", "c0"] : List String) ≠ ["c0", "c1"] := by
  refine ⟨by decide, by decide, by decide⟩

/-- C8 amended: tie-breaking is deterministic but reversed — whenever two
indexed chunks have equal similarity scores, the later-inserted chunk appears
BEFORE the earlier one in the search results (under the stable model of
`np.argsort`, whose ascending output is reversed for descending order). -/
theorem C8_amended_ties_reversed (st : RAGState) (fv : FittedVectorizer)
    (hv : st.vectorizer = some fv) (q : String) (k : Nat) :
    (SimpleFreeRAG.searchIndices st q k).Pairwise
      (fun i j => (fv.sim q).getD i 0 = (fv.sim q).getD j 0 → j < i) := by
  rw [searchIndices_eq_of_some hv q k]
  have hp : (topIndices (fv.sim q) k).Pairwise
      (fun i j => simLe (fv.sim q) j i ∧ i ≠ j) :=
    List.Pairwise.and (topIndices_pairwise (fv.sim q) k) (topIndices_nodup (fv.sim q) k)
  refine List.Pairwise.imp ?_ (List.Pairwise.sublist (List.filter_sublist _) hp)
  intro i j hij heq
  rcases hij with ⟨hlt | ⟨hje, hji⟩, hne⟩
  · exact absurd (heq ▸ hlt) (lt_irrefl _)
  · exact lt_of_le_of_ne hji (fun hji' => hne hji'.symm)

/-- Witness for C8's amended theorem at the concrete tie state. -/
theorem C8_witness :
    (SimpleFreeRAG.searchIndices stC8 "q" 2).Pairwise
      (fun i j => (fvC8.sim "q").getD i 0 = (fvC8.sim "q").getD j 0 → j < i) :=
  C8_amended_ties_reversed stC8 fvC8 rfl "q" 2

/-! ### Shared lemmas about the chunkers and the loaders -/

theorem dropWhile_eq_self_of {α : Type} (p : α → Bool) :
    ∀ (l : List α), (∀ c ∈ l, p c = false) → l.dropWhile p = l
  | [], _ => rfl
  | a :: t, h => by
      have ha : p a = false := h a (List.mem_cons_self a t)
      simp [List.dropWhile_cons, ha]

theorem pyStripL_eq_self {l : List Char} (h : ∀ c ∈ l, isPySpace c = false) :
    pyStripL l = l := by
  rw [pyStripL, dropWhile_eq_self_of _ l h,
    dropWhile_eq_self_of _ l.reverse (fun c hc => h c (List.mem_reverse.mp hc)),
    List.reverse_reverse]

theorem pageWordChunkLoop_step (words : List String) (fuel i : Nat) (h : i < words.length) :
    pageWordChunkLoop words (fuel + 1) i =
      if 50 < (pyStrip (pyJoin " " ((words.drop i).take 200))).length then
        pyJoin " " ((words.drop i).take 200) :: pageWordChunkLoop words fuel (i + 200)
      else pageWordChunkLoop words fuel (i + 200) := by
  simp only [pageWordChunkLoop, if_pos h]

theorem pageWordChunkLoop_stop (words : List String) (fuel i : Nat) (h : ¬ i < words.length) :
    pageWordChunkLoop words (fuel + 1) i = [] := by
  simp only [pageWordChunkLoop, if_neg h]

theorem chunkTextLoop_step (text : List Char) (cs ov fuel start : Nat) (h : start < text.length) :
    chunkTextLoop text cs ov (fuel + 1) start =
      if pyStripL ((text.drop start).take cs) = [] then
        chunkTextLoop text cs ov fuel (start + (cs - ov))
      else (text.drop start).take cs :: chunkTextLoop text cs ov fuel (start + (cs - ov)) := by
  simp only [chunkTextLoop, if_pos h]

theorem chunkTextLoop_stop (text : List Char) (cs ov fuel start : Nat)
    (h : ¬ start < text.length) :
    chunkTextLoop text cs ov (fuel + 1) start = [] := by
  simp only [chunkTextLoop, if_neg h]

theorem pageWordChunkLoop_min_length (words : List String) :
    ∀ (fuel i : Nat), ∀ c ∈ pageWordChunkLoop words fuel i, 50 < (pyStrip c).length := by
  intro fuel
  induction fuel with
  | zero => intro i c hc; simp [pageWordChunkLoop] at hc
  | succ f ih =>
      intro i c hc
      by_cases h : i < words.length
      · rw [pageWordChunkLoop_step words f i h] at hc
        split at hc
        next h50 =>
          rcases List.mem_cons.mp hc with rfl | hm
          · exact h50
          · exact ih _ _ hm
        next => exact ih _ _ hc
      · rw [pageWordChunkLoop_stop words f i h] at hc
        simp at hc

theorem chunkTextLoop_strip_ne (text : List Char) (cs ov : Nat) :
    ∀ (fuel start : Nat), ∀ c ∈ chunkTextLoop text cs ov fuel start, pyStripL c ≠ [] := by
  intro fuel
  induction fuel with
  | zero => intro s c hc; simp [chunkTextLoop] at hc
  | succ f ih =>
      intro s c hc
      by_cases h : s < text.length
      · rw [chunkTextLoop_step text cs ov f s h] at hc
        split at hc
        next => exact ih _ _ hc
        next hne =>
          rcases List.mem_cons.mp hc with rfl | hm
          · exact hne
          · exact ih _ _ hm
      · rw [chunkTextLoop_stop text cs ov f s h] at hc
        simp at hc

theorem SourceDoc.entries_min_length (d : SourceDoc) :
    ∀ p ∈ d.entries, 50 < (pyStrip p.1).length := by
  intro p hp
  cases d with
  | pdf filename path pages =>
      simp only [SourceDoc.entries, List.mem_flatten, List.mem_map] at hp
      obtain ⟨lst, ⟨pg, hpg, rfl⟩, hplst⟩ := hp
      split at hplst
      · rw [List.mem_map] at hplst
        obtain ⟨c, hc, rfl⟩ := hplst
        exact pageWordChunkLoop_min_length _ _ _ _ hc
      · simp at hplst
  | docx filename path paragraphs =>
      simp only [SourceDoc.entries] at hp
      split at hp
      · rw [List.mem_map] at hp
        obtain ⟨c, hc, rfl⟩ := hp
        exact pageWordChunkLoop_min_length _ _ _ _ hc
      · simp at hp

theorem load_documents_chunks (st : RAGState) (files : List SourceDoc) :
    (load_documents st files).chunks = st.chunks ++ batchChunks files ∧
    (load_documents st files).metadata = st.metadata ++ batchMetadata files := by
  induction files generalizing st with
  | nil => simp [load_documents, batchChunks, batchMetadata]
  | cons d ds ih =>
      constructor
      · show (load_documents (loadDocument st d) ds).chunks = _
        rw [(ih (loadDocument st d)).1]
        simp [loadDocument, batchChunks, List.append_assoc]
      · show (load_documents (loadDocument st d) ds).metadata = _
        rw [(ih (loadDocument st d)).2]
        simp [loadDocument, batchMetadata, List.append_assoc]

theorem load_documents_vectorizer (st : RAGState) (files : List SourceDoc) :
    (load_documents st files).vectorizer = st.vectorizer := by
  induction files generalizing st with
  | nil => rfl
  | cons d ds ih => exact (ih (loadDocument st d)).trans rfl

theorem build_index_chunks (F : TfidfFit) (st : RAGState) :
    (build_index F st).chunks = st.chunks ∧ (build_index F st).metadata = st.metadata := by
  refine ⟨?_, ?_⟩ <;> (unfold build_index; split <;> rfl)

theorem batch_length_eq (files : List SourceDoc) :
    (batchMetadata files).length = (batchChunks files).length := by
  simp only [batchChunks, batchMetadata, List.length_flatten, List.map_map]
  have hfun : (List.length ∘ fun d : SourceDoc => List.map Prod.snd d.entries)
      = (List.length ∘ fun d : SourceDoc => List.map Prod.fst d.entries) := by
    funext d
    simp [Function.comp, List.length_map]
  rw [hfun]

theorem reachable_inv {F : TfidfFit} {st : RAGState} (h : Reachable F st) : StateInv st := by
  induction h with
  | init =>
      refine ⟨rfl, ?_⟩
      intro fv hfv
      simp [ragInit] at hfv
  | @loadDocs st' files hst ih =>
      obtain ⟨hlen, hvec⟩ := ih
      refine ⟨?_, ?_⟩
      · rw [(load_documents_chunks st' files).1, (load_documents_chunks st' files).2]
        simp [List.length_append, hlen, batch_length_eq files]
      · intro fv hfv
        rw [load_documents_vectorizer st' files] at hfv
        rw [(load_documents_chunks st' files).1, List.length_append]
        exact le_trans (hvec fv hfv) (Nat.le_add_right _ _)
  | @build st' hst ih =>
      obtain ⟨hlen, hvec⟩ := ih
      unfold build_index
      split
      · exact ⟨hlen, hvec⟩
      · refine ⟨hlen, ?_⟩
        intro fv hfv
        simp only [Option.some.injEq] at hfv
        rw [← hfv]
        exact le_of_eq (F.fit_rows _)
  | @loadSaved st' hst ih => exact ih

theorem reachable_chunks_min {F : TfidfFit} {st : RAGState} (h : Reachable F st) :
    ∀ c ∈ st.chunks, 50 < (pyStrip c).length := by
  induction h with
  | init => intro c hc; simp [ragInit] at hc
  | @loadDocs st' files hst ih =>
      intro c hc
      rw [(load_documents_chunks st' files).1, List.mem_append] at hc
      rcases hc with hc | hc
      · exact ih c hc
      · rw [batchChunks, List.mem_flatten] at hc
        obtain ⟨lst, hlst, hcl⟩ := hc
        rw [List.mem_map] at hlst
        obtain ⟨d, hd, rfl⟩ := hlst
        rw [List.mem_map] at hcl
        obtain ⟨p, hp, rfl⟩ := hcl
        exact SourceDoc.entries_min_length d p hp
  | @build st' hst ih =>
      intro c hc
      rw [(build_index_chunks F st').1] at hc
      exact ih c hc
  | @loadSaved st' hst ih => exact ih

/-! ### C2 -/

/-- A concrete 450-word page: the words are the decimal numerals 0..449 (all
distinct, none shorter than one character, no whitespace inside a word). -/
def ws450 : List String := (List.range 450).map Nat.repr

/-- C2 counterexample: on a 450-word page the word-based chunker of
`SimpleFreeRAG._load_pdf` produces the three chunks covering word ranges
0-200, 200-400 and 400-450 (stride 200, NO overlap), which differs from the
claimed ranges 0-200, 150-350, 300-450: the claimed chunk list is not the
produced one, and the produced second chunk joins words 200-400, not words
150-350. -/
theorem C2_counterexample :
    pageWordChunks ws450 =
      [pyJoin " " ((ws450.drop 0).take 200), pyJoin " " ((ws450.drop 200).take 200),
       pyJoin " " ((ws450.drop 400).take 200)] ∧
    pageWordChunks ws450 ≠
      [pyJoin " " ((ws450.drop 0).take 200), pyJoin " " ((ws450.drop 150).take 200),
       pyJoin " " ((ws450.drop 300).take 200)] ∧
    pyJoin " " ((ws450.drop 200).take 200) ≠ pyJoin " " ((ws450.drop 150).take 200) := by
  refine ⟨by decide, by decide, by decide⟩

/-- C2 amended: the two chunkers differ from the claim in complementary ways.
The word-based chunker used by the lexical index (`_load_pdf`, window 200
words) has NO overlap: a 450-word page yields exactly the three chunks over
word ranges 0-200, 200-400 and 400-450 (last chunk shorter).  The sliding
window with trailing overlap exists only in `rag_ingest.chunk_text` and works
on CHARACTERS, not words: with `chunk_size = 200` and `overlap = 50` a
450-character text yields exactly three chunks covering character ranges
0-200, 150-350 and 300-450 (last chunk shorter). -/
theorem C2_amended_chunking
    (ws : List String) (hw : ws.length = 450)
    (h0 : 50 < (pyStrip (pyJoin " " ((ws.drop 0).take 200))).length)
    (h1 : 50 < (pyStrip (pyJoin " " ((ws.drop 200).take 200))).length)
    (h2 : 50 < (pyStrip (pyJoin " " ((ws.drop 400).take 200))).length)
    (text : List Char) (ht : text.length = 450)
    (hns : ∀ c ∈ text, isPySpace c = false) :
    pageWordChunks ws =
      [pyJoin " " ((ws.drop 0).take 200), pyJoin " " ((ws.drop 200).take 200),
       pyJoin " " ((ws.drop 400).take 200)] ∧
    chunk_text text 200 50 =
      [(text.drop 0).take 200, (text.drop 150).take 200, (text.drop 300).take 200] := by
  constructor
  · show pageWordChunkLoop ws (ws.length + 1) 0 = _
    rw [hw]
    rw [pageWordChunkLoop_step ws 450 0 (by omega)]
    rw [if_pos h0]
    rw [show (0 : Nat) + 200 = 200 from rfl, show (450 : Nat) = 449 + 1 from rfl]
    rw [pageWordChunkLoop_step ws 449 200 (by omega)]
    rw [if_pos h1]
    rw [show (200 : Nat) + 200 = 400 from rfl, show (449 : Nat) = 448 + 1 from rfl]
    rw [pageWordChunkLoop_step ws 448 400 (by omega)]
    rw [if_pos h2]
    rw [show (400 : Nat) + 200 = 600 from rfl, show (448 : Nat) = 447 + 1 from rfl]
    rw [pageWordChunkLoop_stop ws 447 600 (by omega)]
  · have hsub : ∀ (s : Nat), ∀ c ∈ (text.drop s).take 200, isPySpace c = false := fun s c hc =>
      hns c (List.Sublist.mem hc ((List.take_sublist _ _).trans (List.drop_sublist _ _)))
    have hchunk : ∀ s : Nat, s < text.length → ¬ pyStripL ((text.drop s).take 200) = [] := by
      intro s hs
      rw [pyStripL_eq_self (hsub s)]
      have hlen : ((text.drop s).take 200).length = min 200 (text.length - s) := by
        simp [List.length_take, List.length_drop]
      intro hnil
      rw [hnil] at hlen
      simp at hlen
      omega
    show chunkTextLoop text 200 50 (text.length + 1) 0 = _
    rw [ht]
    rw [chunkTextLoop_step text 200 50 450 0 (by omega)]
    rw [if_neg (hchunk 0 (by omega))]
    rw [show (0 : Nat) + (200 - 50) = 150 from rfl, show (450 : Nat) = 449 + 1 from rfl]
    rw [chunkTextLoop_step text 200 50 449 150 (by omega)]
    rw [if_neg (hchunk 150 (by omega))]
    rw [show (150 : Nat) + (200 - 50) = 300 from rfl, show (449 : Nat) = 448 + 1 from rfl]
    rw [chunkTextLoop_step text 200 50 448 300 (by omega)]
    rw [if_neg (hchunk 300 (by omega))]
    rw [show (300 : Nat) + (200 - 50) = 450 from rfl, show (448 : Nat) = 447 + 1 from rfl]
    rw [chunkTextLoop_stop text 200 50 447 450 (by omega)]

/-- A concrete 450-character text (no whitespace) for the C2 witness. -/
def char450 : List Char := List.replicate 450 'a'

/-- Witness for C2's amended theorem at the concrete 450-word page `ws450`
and the concrete 450-character text `char450`. -/
theorem C2_witness :
    pageWordChunks ws450 =
      [pyJoin " " ((ws450.drop 0).take 200), pyJoin " " ((ws450.drop 200).take 200),
       pyJoin " " ((ws450.drop 400).take 200)] ∧
    chunk_text char450 200 50 =
      [(char450.drop 0).take 200, (char450.drop 150).take 200, (char450.drop 300).take 200] :=
  C2_amended_chunking ws450 (by decide) (by decide) (by decide) (by decide)
    char450 (by decide) (by decide)

/-! ### C9 -/

/-- C9: every chunk of every reachable index state has trimmed length above
the 50-character minimum (in particular it is not empty or whitespace-only),
and the character chunker `chunk_text` never emits a chunk whose trimmed text
is empty (its minimum viable length is one non-whitespace character). -/
theorem C9_chunks_above_min_length (F : TfidfFit) (st : RAGState) (h : Reachable F st) :
    (∀ c ∈ st.chunks, 50 < (pyStrip c).length ∧ pyStrip c ≠ "") ∧
    (∀ (text : List Char) (cs ov : Nat), ∀ ch ∈ chunk_text text cs ov, pyStripL ch ≠ []) := by
  constructor
  · intro c hc
    have h1 := reachable_chunks_min h c hc
    refine ⟨h1, ?_⟩
    intro hemp
    rw [hemp] at h1
    exact absurd h1 (by decide)
  · intro text cs ov ch hch
    exact chunkTextLoop_strip_ne text cs ov _ _ ch hch

/-- A single-page document whose page text is 60 copies of the word `word`
(big enough to pass the 50-character filter). -/
def docC9 : SourceDoc := .pdf "w.pdf" "/data/w.pdf" [pyJoin " " (List.replicate 60 "word")]

/-- A concrete reachable state holding the chunks of `docC9`. -/
def stC9 : RAGState := load_documents ragInit [docC9]

/-- A concrete fitting oracle: the matrix of a fit over `cs` has `cs.length`
rows, every similarity 0. -/
def fitOracle : TfidfFit :=
  ⟨fun cs => ⟨cs.length, fun _ => List.replicate cs.length 0, fun _ => by simp⟩, fun _ => rfl⟩

/-- Witness for C9 at the concrete reachable state `stC9`. -/
theorem C9_witness :
    (∀ c ∈ stC9.chunks, 50 < (pyStrip c).length ∧ pyStrip c ≠ "") ∧
    (∀ (text : List Char) (cs ov : Nat), ∀ ch ∈ chunk_text text cs ov, pyStripL ch ≠ []) :=
  C9_chunks_above_min_length fitOracle stC9 (Reachable.loadDocs [docC9] Reachable.init)

/-! ### String containment helpers -/

theorem strContains_self (s : String) : strContains s s := ⟨"", "", by simp⟩

theorem strContains_of_append_left {t s : String} (u : String) (h : strContains t s) :
    strContains (t ++ u) s := by
  obtain ⟨p, q, rfl⟩ := h
  exact ⟨p, q ++ u, by simp [String.append_assoc]⟩

theorem strContains_of_append_right {t s : String} (u : String) (h : strContains t s) :
    strContains (u ++ t) s := by
  obtain ⟨p, q, rfl⟩ := h
  exact ⟨u ++ p, q, by simp [String.append_assoc]⟩

theorem strContains_trans {a b c : String} (h1 : strContains a b) (h2 : strContains b c) :
    strContains a c := by
  obtain ⟨p, q, rfl⟩ := h1
  obtain ⟨p2, q2, rfl⟩ := h2
  exact ⟨p ++ p2, q2 ++ q, by simp [String.append_assoc]⟩

theorem strContains_pyJoin (sep s : String) :
    ∀ (parts : List String), s ∈ parts → strContains (pyJoin sep parts) s
  | [], h => absurd h (List.not_mem_nil s)
  | [x], h => by
      rcases List.mem_singleton.mp h with rfl
      exact strContains_self s
  | a :: b :: l, h => by
      rcases List.mem_cons.mp h with rfl | hm
      · show strContains (s ++ sep ++ pyJoin sep (b :: l)) s
        exact strContains_of_append_left _ (strContains_of_append_left _ (strContains_self s))
      · have ih := strContains_pyJoin sep s (b :: l) hm
        show strContains (a ++ sep ++ pyJoin sep (b :: l)) s
        rw [String.append_assoc]
        exact strContains_of_append_right _ (strContains_of_append_right _ ih)

theorem fallbackAnswer_contains (c : RagQuery.RQChunk) (cs : List RagQuery.RQChunk) :
    strContains (RagQuery.fallbackAnswer (c :: cs)) (strTake c.text 300) ∧
    strContains (RagQuery.fallbackAnswer (c :: cs)) RagQuery.quotaNote := by
  have hmem : ("   " ++ strTake c.text 300 ++ "...") ∈
      (RagQuery.quotaNote ::
        (((c :: cs).take 3).enum.map (fun ic =>
          ["\n" ++ Nat.repr (ic.1 + 1) ++ ". From " ++ ic.2.filename ++ ", Page "
             ++ Nat.repr ic.2.page ++ ":",
           "   " ++ strTake ic.2.text 300 ++ "..."])).flatten) := by
    have h0 : ((0 : Nat), c) ∈ ((c :: cs).take 3).enum := by
      simp [List.take_succ_cons, List.enum_cons]
    refine List.mem_cons_of_mem _ (List.mem_flatten.mpr ⟨_, List.mem_map_of_mem _ h0, ?_⟩)
    simp
  constructor
  · refine strContains_of_append_left RagQuery.quotaTip ?_
    refine strContains_trans (strContains_pyJoin "\n" _ _ hmem) ?_
    exact ⟨"   ", "...", rfl⟩
  · refine strContains_of_append_left RagQuery.quotaTip ?_
    exact strContains_pyJoin "\n" _ _ (List.mem_cons_self _ _)

/-! ### C4 -/

theorem query_of_vectorizer_none {st : RAGState} (hv : st.vectorizer = none)
    (apiKey : String) (gen : String → GenResult) (question : String) :
    SimpleFreeRAG.query apiKey gen st question =
      ⟨"No relevant information found in the uploaded contracts.", [], "No matching documents"⟩ := by
  unfold SimpleFreeRAG.query
  rw [search_none hv]
  simp

/-- C4: searching an unbuilt index (vectorizer never fitted) returns the empty
result list rather than raising, and `query` on such an index — in particular
on the index obtained by ingesting zero documents and building — returns the
canned outcome with empty citations; no branch of the model is partial, so no
exception can propagate. -/
theorem C4_empty_index_no_error (st : RAGState) (hv : st.vectorizer = none)
    (q : String) (k : Nat) (apiKey : String) (gen : String → GenResult) (F : TfidfFit) :
    SimpleFreeRAG.search st q k = [] ∧
    (SimpleFreeRAG.query apiKey gen st q).citations = [] ∧
    (build_index F (load_documents ragInit [])).vectorizer = none ∧
    (SimpleFreeRAG.query apiKey gen (build_index F (load_documents ragInit [])) q).citations
      = [] := by
  have hzero : (build_index F (load_documents ragInit [])).vectorizer = none := rfl
  exact ⟨search_none hv q k, by rw [query_of_vectorizer_none hv], hzero,
    by rw [query_of_vectorizer_none hzero]⟩

/-- Witness for C4 at the freshly initialized instance. -/
theorem C4_witness :
    SimpleFreeRAG.search ragInit "q" 3 = [] ∧
    (SimpleFreeRAG.query "" (fun _ => GenResult.err "e") ragInit "q").citations = [] ∧
    (build_index fitOracle (load_documents ragInit [])).vectorizer = none ∧
    (SimpleFreeRAG.query "" (fun _ => GenResult.err "e")
        (build_index fitOracle (load_documents ragInit [])) "q").citations = [] :=
  C4_empty_index_no_error ragInit rfl "q" 3 "" (fun _ => GenResult.err "e") fitOracle

/-! ### C5 -/

theorem chooseRagBackend_local {kbId : String} {ready : Bool}
    (hkb : pyStrip kbId = "" ∨ ready = false) :
    chooseRagBackend kbId ready = .localLexical := by
  unfold chooseRagBackend
  rcases hkb with h | h <;> rw [if_neg (by simp [h])]

/-- C5: the route services every query with exactly one backend (its citation
list is exactly the chosen tier's list — results are never merged), the
chosen tier is recorded in the outcome (`raw_response.source = "local_free"`
on the local path), and when the managed knowledge base is unavailable
(unconfigured id or uninitialized client — and no dense tier exists in this
route at all) the local lexical TF-IDF tier must service the query; likewise
in `handle_document_qna` an unavailable dense store with a built TF-IDF index
selects the TF-IDF retrieval, never the dense one. -/
theorem C5_single_tier_fallthrough (kbId : String) (ready : Bool)
    (localOutcome : SimpleFreeRAG.QueryOutcome) (awsAnswer : String)
    (awsCits : List SimpleFreeRAG.Citation)
    (hkb : pyStrip kbId = "" ∨ ready = false) :
    chooseRagBackend kbId ready = .localLexical ∧
    ragQueryRoute kbId ready localOutcome awsAnswer awsCits =
      ⟨localOutcome.answer, localOutcome.reasoning,
       (localOutcome.citations.take 5).map (fun c => { c with snippet := strTake c.snippet 500 }),
       some "local_free"⟩ ∧
    (∀ (kb : String) (r : Bool),
      chooseRagBackend kb r = .awsKB ∨ chooseRagBackend kb r = .localLexical) ∧
    (∀ (kb : String) (r : Bool) (lo : SimpleFreeRAG.QueryOutcome) (aa : String)
        (ac : List SimpleFreeRAG.Citation),
      (ragQueryRoute kb r lo aa ac).citations =
        (match chooseRagBackend kb r with
         | .localLexical =>
             (lo.citations.take 5).map (fun c => { c with snippet := strTake c.snippet 500 })
         | .awsKB => ac)) ∧
    (∀ t : Bool, chooseRetrieval false t ≠ .dense) ∧
    chooseRetrieval false true = .tfidf := by
  have hloc := chooseRagBackend_local hkb
  refine ⟨hloc, ?_, ?_, ?_, ?_, rfl⟩
  · unfold ragQueryRoute
    rw [hloc]
  · intro kb r
    cases h : chooseRagBackend kb r
    · exact Or.inl rfl
    · exact Or.inr rfl
  · intro kb r lo aa ac
    unfold ragQueryRoute
    cases chooseRagBackend kb r <;> rfl
  · intro t
    cases t <;> decide

/-- Concrete local outcome for the C5 witness. -/
def loC5 : SimpleFreeRAG.QueryOutcome := ⟨"local answer", [], "Local TF-IDF retrieval"⟩

/-- Witness for C5 with an unconfigured knowledge-base id. -/
theorem C5_witness :
    chooseRagBackend "" true = .localLexical ∧
    ragQueryRoute "" true loC5 "aws answer" [] =
      ⟨loC5.answer, loC5.reasoning,
       (loC5.citations.take 5).map (fun c => { c with snippet := strTake c.snippet 500 }),
       some "local_free"⟩ ∧
    (∀ (kb : String) (r : Bool),
      chooseRagBackend kb r = .awsKB ∨ chooseRagBackend kb r = .localLexical) ∧
    (∀ (kb : String) (r : Bool) (lo : SimpleFreeRAG.QueryOutcome) (aa : String)
        (ac : List SimpleFreeRAG.Citation),
      (ragQueryRoute kb r lo aa ac).citations =
        (match chooseRagBackend kb r with
         | .localLexical =>
             (lo.citations.take 5).map (fun c => { c with snippet := strTake c.snippet 500 })
         | .awsKB => ac)) ∧
    (∀ t : Bool, chooseRetrieval false t ≠ .dense) ∧
    chooseRetrieval false true = .tfidf :=
  C5_single_tier_fallthrough "" true loC5 "aws answer" [] (Or.inl (by decide))

/-! ### C6 -/

/-- Concrete result used in the C6 counterexample. -/
def rC6 : SimpleFreeRAG.SearchResult :=
  ⟨"clause text about payments", mkRat 2 5, ⟨"contract.pdf", 3, "/data/contract.pdf"⟩⟩

/-- C6 counterexample: with a NON-quota backend error (`"Internal server
error"`, classified non-quota by the `rag_query` classifier) and a non-empty
result list, `SimpleFreeRAG.generate_answer` does NOT return an
error-description string: it returns the extractive fallback, which does not
even mention the error. -/
theorem C6_counterexample :
    SimpleFreeRAG.generate_answer "key" (fun _ => GenResult.err "Internal server error") "q" [rC6]
        = "[Extractive answer from contract.pdf p.3]\n\nclause text about payments..." ∧
    pyIn "Internal server error"
      (SimpleFreeRAG.generate_answer "key" (fun _ => GenResult.err "Internal server error")
        "q" [rC6]) = false ∧
    RagQuery.isQuotaError "Internal server error" = false := by
  refine ⟨by decide, by decide, by decide⟩

/-- C6 amended: the two synthesizers handle backend failure differently.
`rag_query.generate_answer` behaves as claimed: a quota/rate-limit error
yields the deterministic extractive fallback containing the top citation's
text truncated to 300 characters plus the quota note, and any other error
yields an error-description string.  `SimpleFreeRAG.generate_answer`, however,
returns the extractive fallback (top citation's text truncated to 500
characters, with an extractive-answer marker) on EVERY backend error whenever
the result list is non-empty, and returns an error-description string only
when there are no results.  Both functions are total: no exception propagates
past the boundary. -/
theorem C6_amended_generation_fallbacks
    (q e apiKey : String) (hkey : apiKey ≠ "")
    (c : RagQuery.RQChunk) (cs : List RagQuery.RQChunk)
    (r : SimpleFreeRAG.SearchResult) (rs : List SimpleFreeRAG.SearchResult) :
    (RagQuery.isQuotaError e = true →
      RagQuery.generate_answer true (fun _ => GenResult.err e) q (c :: cs)
          = RagQuery.fallbackAnswer (c :: cs) ∧
      strContains (RagQuery.fallbackAnswer (c :: cs)) (strTake c.text 300) ∧
      strContains (RagQuery.fallbackAnswer (c :: cs)) RagQuery.quotaNote) ∧
    (RagQuery.isQuotaError e = false →
      RagQuery.generate_answer true (fun _ => GenResult.err e) q (c :: cs)
          = "Error calling Gemini API: " ++ e) ∧
    (SimpleFreeRAG.generate_answer apiKey (fun _ => GenResult.err e) q (r :: rs)
        = "[Extractive answer from " ++ r.metadata.filename ++ " p."
            ++ Nat.repr r.metadata.page ++ "]\n\n" ++ strTake r.text 500 ++ "..." ∧
      strContains (SimpleFreeRAG.generate_answer apiKey (fun _ => GenResult.err e) q (r :: rs))
        (strTake r.text 500)) ∧
    SimpleFreeRAG.generate_answer apiKey (fun _ => GenResult.err e) q []
        = "Error generating answer: " ++ e := by
  have hsf : SimpleFreeRAG.generate_answer apiKey (fun _ => GenResult.err e) q (r :: rs)
      = "[Extractive answer from " ++ r.metadata.filename ++ " p."
          ++ Nat.repr r.metadata.page ++ "]\n\n" ++ strTake r.text 500 ++ "..." := by
    simp [SimpleFreeRAG.generate_answer, hkey]
  refine ⟨?_, ?_, ⟨hsf, ?_⟩, ?_⟩
  · intro hq
    exact ⟨by simp [RagQuery.generate_answer, hq], (fallbackAnswer_contains c cs).1,
      (fallbackAnswer_contains c cs).2⟩
  · intro hq
    simp [RagQuery.generate_answer, hq]
  · rw [hsf]
    exact ⟨"[Extractive answer from " ++ r.metadata.filename ++ " p."
      ++ Nat.repr r.metadata.page ++ "]\n\n", "...", rfl⟩
  · simp [SimpleFreeRAG.generate_answer, hkey]

/-- Concrete retrieved chunk for the C6 witness. -/
def cC6 : RagQuery.RQChunk := ⟨"notice period is 30 days", "n.pdf", 2, 0, mkRat 1 4⟩

/-- Concrete search result for the C6 witness. -/
def rC6w : SimpleFreeRAG.SearchResult := ⟨"termination clause", mkRat 1 2, ⟨"t.pdf", 4, "/t.pdf"⟩⟩

/-- Witness for C6's amended theorem at a quota-classified error message. -/
theorem C6_witness :
    (RagQuery.isQuotaError "429 rate limit" = true →
      RagQuery.generate_answer true (fun _ => GenResult.err "429 rate limit") "q" (cC6 :: [])
          = RagQuery.fallbackAnswer (cC6 :: []) ∧
      strContains (RagQuery.fallbackAnswer (cC6 :: [])) (strTake cC6.text 300) ∧
      strContains (RagQuery.fallbackAnswer (cC6 :: [])) RagQuery.quotaNote) ∧
    (RagQuery.isQuotaError "429 rate limit" = false →
      RagQuery.generate_answer true (fun _ => GenResult.err "429 rate limit") "q" (cC6 :: [])
          = "Error calling Gemini API: " ++ "429 rate limit") ∧
    (SimpleFreeRAG.generate_answer "key" (fun _ => GenResult.err "429 rate limit") "q"
          (rC6w :: [])
        = "[Extractive answer from " ++ rC6w.metadata.filename ++ " p."
            ++ Nat.repr rC6w.metadata.page ++ "]\n\n" ++ strTake rC6w.text 500 ++ "..." ∧
      strContains
        (SimpleFreeRAG.generate_answer "key" (fun _ => GenResult.err "429 rate limit") "q"
          (rC6w :: []))
        (strTake rC6w.text 500)) ∧
    SimpleFreeRAG.generate_answer "key" (fun _ => GenResult.err "429 rate limit") "q" []
        = "Error generating answer: " ++ "429 rate limit" :=
  C6_amended_generation_fallbacks "q" "429 rate limit" "key" (by decide) cC6 [] rC6w []

/-! ### C7 -/

/-- A one-page document producing exactly one chunk, for the C7
counterexample. -/
def docC7 : SourceDoc := .pdf "new.pdf" "/data/new.pdf" [pyJoin " " (List.replicate 60 "word")]

/-- An in-memory index state already holding one chunk (as after loading a
previously saved index from disk), for the C7 counterexample. -/
def stC7 : RAGState :=
  load_index (save_index ⟨["old chunk text"], [⟨"old.pdf", 1, "/data/old.pdf"⟩], none⟩)

/-- C7 counterexample: running ingestion on the batch `[docC7]` while `stC7`
(one previously loaded chunk) is in memory does NOT leave the index with
exactly the batch's chunks: the old chunk is still there, in front of the
batch's chunks — `load_documents` appends and never clears. -/
theorem C7_counterexample :
    stC7.chunks = ["old chunk text"] ∧
    (load_documents stC7 [docC7]).chunks ≠ batchChunks [docC7] ∧
    (load_documents stC7 [docC7]).chunks = "old chunk text" :: batchChunks [docC7] := by
  refine ⟨rfl, by decide, by decide⟩

/-- C7 amended: ingestion appends — after `load_documents` the chunk sequence
is the pre-existing in-memory chunks followed by exactly the chunks produced
from the batch (likewise for metadata); only when ingestion starts from the
freshly initialized state does the index consist of exactly the batch's
chunks. -/
theorem C7_amended_ingestion_appends (st : RAGState) (files : List SourceDoc) :
    (load_documents st files).chunks = st.chunks ++ batchChunks files ∧
    (load_documents st files).metadata = st.metadata ++ batchMetadata files ∧
    (load_documents ragInit files).chunks = batchChunks files := by
  refine ⟨(load_documents_chunks st files).1, (load_documents_chunks st files).2, ?_⟩
  rw [(load_documents_chunks ragInit files).1]
  exact List.nil_append _

/-! ### C10 -/

theorem searchIndices_bound {st : RAGState} {fv : FittedVectorizer}
    (hv : st.vectorizer = some fv) (q : String) (k : Nat) :
    ∀ idx ∈ SimpleFreeRAG.searchIndices st q k, idx < fv.numRows := by
  intro idx hidx
  rw [searchIndices_eq_of_some hv q k, List.mem_filter] at hidx
  have hlt := mem_topIndices hidx.1
  rwa [fv.sim_length q] at hlt

/-- C10: every state reachable through the lifecycle operations (init, loading
documents, building, loading a saved index) keeps the metadata list exactly as
long as the chunk list, and every chunk index that `search` reads
(`metadata[idx]`, `chunks[idx]`) is strictly below both lengths, so the
lookups are in bounds. -/
theorem C10_metadata_lookup_in_bounds (F : TfidfFit) (st : RAGState) (h : Reachable F st) :
    st.metadata.length = st.chunks.length ∧
    ∀ (q : String) (k : Nat), ∀ idx ∈ SimpleFreeRAG.searchIndices st q k,
      idx < st.metadata.length ∧ idx < st.chunks.length := by
  obtain ⟨hlen, hvec⟩ := reachable_inv h
  refine ⟨hlen, ?_⟩
  intro q k idx hidx
  cases hv : st.vectorizer with
  | none =>
      have hnil : SimpleFreeRAG.searchIndices st q k = [] := by
        unfold SimpleFreeRAG.searchIndices
        rw [hv]
      rw [hnil] at hidx
      simp at hidx
  | some fv =>
      have hb := searchIndices_bound hv q k idx hidx
      have hle := hvec fv hv
      exact ⟨by omega, by omega⟩

/-- Concrete built reachable state for the C10 witness. -/
def stC10 : RAGState := build_index fitOracle (load_documents ragInit [docC9])

/-- Witness for C10 at the concrete reachable state `stC10`. -/
theorem C10_witness :
    stC10.metadata.length = stC10.chunks.length ∧
    ∀ (q : String) (k : Nat), ∀ idx ∈ SimpleFreeRAG.searchIndices stC10 q k,
      idx < stC10.metadata.length ∧ idx < stC10.chunks.length :=
  C10_metadata_lookup_in_bounds fitOracle stC10
    (Reachable.build (Reachable.loadDocs [docC9] Reachable.init))
